import Mathlib

/-!
Verification of the lapin AMQP client core against its specification.

The development shallowly embeds three source files:
* `src/internal_rpc.rs` — the internal RPC command queue, its handle and
  the command dispatcher (`InternalRPC::poll` / `InternalRPC::run`);
* `futures/src/transport.rs` — the `AMQPCodec` frame codec (`decode` /
  `encode`), `AMQPTransport::connect` and `AMQPTransportConnector::poll`;
* `async-lapin/src/lib.rs` — the reactor adapter's `poll_read` /
  `poll_write` tasks.

Machine integers are modelled as `Nat` with explicit `% 2^w` at the points
where the code serializes them.  Byte buffers are `List Nat`.  Code that
lives outside these files (the nom frame parser, the cookie_factory
generators, the `Connection` state machine, channels and promise
resolvers) is modelled from the specification; each such definition says
so in its doc comment.
-/

/-! ### Bytes and big-endian integers -/

/-- Byte of a buffer at an index, `0` past the end (the parser always
checks lengths before reading, so the default is never observable). -/
def byteAt (l : List Nat) (i : Nat) : Nat := l.getD i 0

/-- Big-endian 16-bit read at an offset. -/
def readU16At (l : List Nat) (i : Nat) : Nat :=
  byteAt l i * 256 + byteAt l (i + 1)

/-- Big-endian 32-bit read at an offset. -/
def readU32At (l : List Nat) (i : Nat) : Nat :=
  byteAt l i * 16777216 + byteAt l (i + 1) * 65536 +
    byteAt l (i + 2) * 256 + byteAt l (i + 3)

/-- Big-endian 64-bit read at an offset. -/
def readU64At (l : List Nat) (i : Nat) : Nat :=
  readU32At l i * 4294967296 + readU32At l (i + 4)

/-- Big-endian 16-bit serialization (network byte order, §4.1). -/
def u16be (n : Nat) : List Nat := [n / 256 % 256, n % 256]

/-- Big-endian 32-bit serialization. -/
def u32be (n : Nat) : List Nat :=
  [n / 16777216 % 256, n / 65536 % 256, n / 256 % 256, n % 256]

/-- Big-endian 64-bit serialization (high 32 bits then low 32 bits). -/
def u64be (n : Nat) : List Nat := u32be (n / 4294967296) ++ u32be n

/-! ### Frames -/

/-- The frame data model of §3: `ProtocolHeader`, `Method`, `Header`,
`Body`, `Heartbeat`.  Method arguments and body payloads are opaque byte
lists; the content header carries the channel, class id and body size that
`transport.rs` actually serializes (`gen_content_header_frame` is called
with exactly those fields). -/
inductive Frame where
  | protocolHeader
  | method (channel classId methodId : Nat) (args : List Nat)
  | header (channel classId : Nat) (bodySize : Nat)
  | body (channel : Nat) (data : List Nat)
  | heartbeat (channel : Nat)
  deriving DecidableEq, Repr

/-- The 8-byte protocol header magic `AMQP\x00\x00\x09\x01` (§6). -/
def magic : List Nat := [65, 77, 81, 80, 0, 0, 9, 1]

/-- Frame type octet: 1 method, 2 header, 3 body, 8 heartbeat. -/
def typeByte : Frame → Nat
  | .protocolHeader => 65
  | .method _ _ _ _ => 1
  | .header _ _ _ => 2
  | .body _ _ => 3
  | .heartbeat _ => 8

/-- Payload carried between the 7-byte frame header and the `0xCE`
terminator.  The content header payload is class id, weight `0`, body
size and property flags `0`, matching what the transport's encoder emits
(it passes no properties). -/
def payloadBytes : Frame → List Nat
  | .protocolHeader => []
  | .method _ classId methodId args => u16be classId ++ u16be methodId ++ args
  | .header _ classId bodySize => u16be classId ++ u16be 0 ++ u64be bodySize ++ u16be 0
  | .body _ data => data
  | .heartbeat _ => []

/-- Generic framing `type | channel:u16 | length:u32 | payload | 0xCE`
(§3). -/
def framedBytes (t channel : Nat) (payload : List Nat) : List Nat :=
  t :: (u16be channel ++ (u32be payload.length ++ (payload ++ [206])))

/-- Full encoding of a frame.  `gen_heartbeat_frame` writes channel `0`
regardless of the channel stored in the `Heartbeat` variant, which is what
the transport's encoder calls. -/
def encFrame : Frame → List Nat
  | .protocolHeader => magic
  | .method channel classId methodId args =>
      framedBytes 1 channel (payloadBytes (.method channel classId methodId args))
  | .header channel classId bodySize =>
      framedBytes 2 channel (payloadBytes (.header channel classId bodySize))
  | .body channel data => framedBytes 3 channel (payloadBytes (.body channel data))
  | .heartbeat channel => framedBytes 8 0 (payloadBytes (.heartbeat channel))

/-- Well-formed frames: the payload length fits the 32-bit length field.
The Rust code writes `payload.len()` through a `u32` and would corrupt the
length field beyond `2^32`; every frame the library builds is bounded by
`frame_max` and satisfies this. -/
def wfFrame (f : Frame) : Prop := (payloadBytes f).length < 4294967296

instance (f : Frame) : Decidable (wfFrame f) := by
  unfold wfFrame; infer_instance

/-! ### The frame parser

Modelled from the spec: the nom parser `lapin_async::format::frame::frame`
used by `AMQPCodec::decode` is not under `src/`.  §4.1: decoding is
incremental — partial frames return `Incomplete`; unknown frame type or a
missing `0xCE` terminator is a protocol error; §3 gives the framing
layout.  The `frame_max` check belongs to the connection layer (the codec
struct carries no `frame_max`), so it does not appear here. -/

/-- Result of the nom-style parser: `Incomplete`, `Error`, or
`Done(remaining, frame)`. -/
inductive ParseResult where
  | incomplete
  | error
  | done (remaining : List Nat) (f : Frame)
  deriving DecidableEq, Repr

/-- Parse a frame payload given the frame type octet.  Methods carry class
and method ids then arguments; the content header carries class, weight,
body size and property flags (only flag-less headers are emitted by this
transport, see `payloadBytes`); heartbeats must be empty (§3). -/
def parsePayload (t channel : Nat) (payload : List Nat) : Option Frame :=
  if t = 8 then
    if payload.length = 0 then some (Frame.heartbeat channel) else none
  else if t = 1 then
    if 4 ≤ payload.length then
      some (Frame.method channel (readU16At payload 0) (readU16At payload 2)
        (payload.drop 4))
    else none
  else if t = 2 then
    if payload.length = 14 ∧ readU16At payload 2 = 0 ∧ readU16At payload 12 = 0 then
      some (Frame.header channel (readU16At payload 0) (readU64At payload 4))
    else none
  else if t = 3 then
    some (Frame.body channel payload)
  else none

/-- The frame parser.  Modelled from the spec (see the section comment):
an empty buffer is incomplete; a buffer starting with `A` is matched
against the protocol header; otherwise the type octet must be one of
1/2/3/8, the 7-byte frame header and `length` payload bytes plus the
terminator must be present, the terminator must be `0xCE`, and the payload
must parse. -/
def frame (buf : List Nat) : ParseResult :=
  if buf.length = 0 then ParseResult.incomplete
  else if byteAt buf 0 = 65 then
    if buf.length < 8 then
      if buf = magic.take buf.length then ParseResult.incomplete else ParseResult.error
    else
      if buf.take 8 = magic then ParseResult.done (buf.drop 8) Frame.protocolHeader
      else ParseResult.error
  else if byteAt buf 0 = 1 ∨ byteAt buf 0 = 2 ∨ byteAt buf 0 = 3 ∨ byteAt buf 0 = 8 then
    if buf.length < 7 then ParseResult.incomplete
    else
      let len := readU32At buf 3
      if buf.length < 8 + len then ParseResult.incomplete
      else if byteAt buf (7 + len) ≠ 206 then ParseResult.error
      else
        match parsePayload (byteAt buf 0) (readU16At buf 1) ((buf.drop 7).take len) with
        | some f => ParseResult.done (buf.drop (8 + len)) f
        | none => ParseResult.error
  else ParseResult.error

/-! ### AMQPCodec::decode (futures/src/transport.rs lines 19–37) -/

/-- The io::Error values `decode`/`encode` produce. -/
inductive CodecError where
  | parseError
  | invalidData
  deriving DecidableEq, Repr

/-- Model of `AMQPCodec::decode`: on `Incomplete` return `Ok(None)` leaving the
buffer alone; on a parse error return `Err` (the buffer is also left
alone); on `Done(i, frame)` split off `buf.offset(i)` consumed bytes —
i.e. keep exactly the remaining input — and return the frame. -/
def decode (buf : List Nat) : Except CodecError (Option Frame) × List Nat :=
  match frame buf with
  | ParseResult.incomplete => (Except.ok none, buf)
  | ParseResult.error => (Except.error CodecError.parseError, buf)
  | ParseResult.done remaining f => (Except.ok (some f), remaining)

/-! ### AMQPCodec::encode (futures/src/transport.rs lines 44–91) -/

/-- cookie_factory's error type as matched by the encode loop. -/
inductive GenError where
  | bufferTooSmall (sz : Nat)
  | invalidOffset
  | customError (code : Nat)
  | notYetImplemented
  deriving DecidableEq, Repr

/-- Modelled from the spec: the cookie_factory generators
(`gen_protocol_header`, `gen_heartbeat_frame`, `gen_method_frame`,
`gen_content_header_frame`, `gen_content_body_frame` from
`lapin_async::format::frame`) are not under `src/`.  §4.1: "Encoding into
an undersized buffer MUST return the required size rather than truncate" —
so a buffer shorter than the frame's encoding yields
`BufferTooSmall(required)` and a sufficient buffer yields `Ok(size)` with
the final write index. -/
def genFrame (f : Frame) (buf : List Nat) : Except GenError Nat :=
  if (encFrame f).length ≤ buf.length then Except.ok (encFrame f).length
  else Except.error (GenError.bufferTooSmall (encFrame f).length)

/-- Buffer contents after a successful generator run: the encoding is
written starting at offset 0, bytes past the final index keep their old
values. -/
def genWrite (f : Frame) (buf : List Nat) : List Nat :=
  encFrame f ++ buf.drop (encFrame f).length

/-- The `loop` in `AMQPCodec::encode`: run the generator; on `Ok(sz)`
truncate the buffer to `sz` and succeed; on `BufferTooSmall(sz)` extend
the buffer by `sz - length` zero bytes (`length` is the buffer length
captured before the call) and retry; any other generator error returns
`InvalidData`.  The guard on the recursive call carries the loop's
termination measure; `genFrame` only reports `bufferTooSmall` with the
frame's full encoded size, strictly above the current buffer length, so
the guard always holds on reachable states (see the C10 theorem). -/
def encodeLoop (f : Frame) (length : Nat) (buf : List Nat) : Except CodecError (List Nat) :=
  match genFrame f buf with
  | Except.ok sz => Except.ok (List.take sz (genWrite f buf))
  | Except.error (GenError.bufferTooSmall sz) =>
    if h : buf.length < sz ∧ length < sz ∧ sz ≤ (encFrame f).length then
      encodeLoop f length (buf ++ List.replicate (sz - length) 0)
    else
      Except.error CodecError.invalidData
  | Except.error GenError.invalidOffset => Except.error CodecError.invalidData
  | Except.error (GenError.customError _) => Except.error CodecError.invalidData
  | Except.error GenError.notYetImplemented => Except.error CodecError.invalidData
termination_by (encFrame f).length - buf.length
decreasing_by
  simp only [List.length_append, List.length_replicate]
  omega

/-- Model of `AMQPCodec::encode`: capture the incoming buffer length, pad the
buffer with zeroes up to 8192 bytes if it is shorter, then run the
generate/grow loop. -/
def encode (f : Frame) (buf : List Nat) : Except CodecError (List Nat) :=
  let length := buf.length
  let buf1 := if length < 8192 then buf ++ List.replicate (8192 - length) 0 else buf
  encodeLoop f length buf1

/-! ### Codec helper lemmas -/

theorem byteAt_append_left : ∀ (l r : List Nat) (i : Nat), i < l.length →
    byteAt (l ++ r) i = byteAt l i
  | [], _, i, h => absurd h (by simp)
  | _ :: _, _, 0, _ => rfl
  | _ :: l, r, i + 1, h => byteAt_append_left l r i (by simpa using h)

theorem byteAt_append_right : ∀ (l r : List Nat) (i : Nat),
    byteAt (l ++ r) (l.length + i) = byteAt r i
  | [], r, i => by simp [byteAt]
  | a :: l, r, i => by
    have := byteAt_append_right l r i
    simpa [Nat.succ_add, byteAt] using this

theorem u16be_length (n : Nat) : (u16be n).length = 2 := rfl

theorem u32be_length (n : Nat) : (u32be n).length = 4 := rfl

theorem u64be_length (n : Nat) : (u64be n).length = 8 := rfl

theorem framedBytes_length (t ch : Nat) (payload : List Nat) :
    (framedBytes t ch payload).length = 8 + payload.length := by
  simp [framedBytes, u16be, u32be]
  omega

theorem framedBytes_cons (t ch : Nat) (payload : List Nat) :
    framedBytes t ch payload =
      t :: (ch / 256 % 256) :: (ch % 256) ::
      (payload.length / 16777216 % 256) :: (payload.length / 65536 % 256) ::
      (payload.length / 256 % 256) :: (payload.length % 256) ::
      (payload ++ [206]) := by
  simp [framedBytes, u16be, u32be]

theorem byteAt_seven (a1 a2 a3 a4 a5 a6 a7 : Nat) (tail : List Nat) (n : Nat) :
    byteAt (a1 :: a2 :: a3 :: a4 :: a5 :: a6 :: a7 :: tail) (7 + n) = byteAt tail n := by
  rw [Nat.add_comm]
  rfl

theorem drop_seven (a1 a2 a3 a4 a5 a6 a7 : Nat) (tail : List Nat) (n : Nat) :
    List.drop (7 + n) (a1 :: a2 :: a3 :: a4 :: a5 :: a6 :: a7 :: tail) = List.drop n tail := by
  rw [Nat.add_comm]
  rfl

theorem frame_framedBytes_append (t ch : Nat) (payload rest : List Nat)
    (ht : t = 1 ∨ t = 2 ∨ t = 3 ∨ t = 8) (hlen : payload.length < 4294967296) :
    frame (framedBytes t ch payload ++ rest) =
      match parsePayload t (ch % 65536) payload with
      | some f => ParseResult.done rest f
      | none => ParseResult.error := by
  have ht65 : t ≠ 65 := by rcases ht with h | h | h | h <;> omega
  rw [framedBytes_cons]
  simp only [List.cons_append]
  set L := payload.length with hL
  have hb0 : byteAt (t :: (ch / 256 % 256) :: (ch % 256) :: (L / 16777216 % 256) ::
      (L / 65536 % 256) :: (L / 256 % 256) :: (L % 256) :: ((payload ++ [206]) ++ rest)) 0 = t := rfl
  have hlen7 : (t :: (ch / 256 % 256) :: (ch % 256) :: (L / 16777216 % 256) ::
      (L / 65536 % 256) :: (L / 256 % 256) :: (L % 256) :: ((payload ++ [206]) ++ rest)).length
      = 8 + L + rest.length := by
    simp
    omega
  have hread32 : readU32At (t :: (ch / 256 % 256) :: (ch % 256) :: (L / 16777216 % 256) ::
      (L / 65536 % 256) :: (L / 256 % 256) :: (L % 256) :: ((payload ++ [206]) ++ rest)) 3 = L := by
    simp [readU32At, byteAt]
    omega
  have hread16 : readU16At (t :: (ch / 256 % 256) :: (ch % 256) :: (L / 16777216 % 256) ::
      (L / 65536 % 256) :: (L / 256 % 256) :: (L % 256) :: ((payload ++ [206]) ++ rest)) 1
      = ch % 65536 := by
    simp [readU16At, byteAt]
    omega
  have hterm : byteAt (t :: (ch / 256 % 256) :: (ch % 256) :: (L / 16777216 % 256) ::
      (L / 65536 % 256) :: (L / 256 % 256) :: (L % 256) :: ((payload ++ [206]) ++ rest)) (7 + L)
      = 206 := by
    rw [byteAt_seven, List.append_assoc]
    have := byteAt_append_right payload ([206] ++ rest) 0
    simpa [byteAt] using this
  have hpay : ((t :: (ch / 256 % 256) :: (ch % 256) :: (L / 16777216 % 256) ::
      (L / 65536 % 256) :: (L / 256 % 256) :: (L % 256) :: ((payload ++ [206]) ++ rest)).drop 7).take L
      = payload := by
    show (((payload ++ [206]) ++ rest)).take L = payload
    rw [List.append_assoc, hL, List.take_left]
  have hdrop : (t :: (ch / 256 % 256) :: (ch % 256) :: (L / 16777216 % 256) ::
      (L / 65536 % 256) :: (L / 256 % 256) :: (L % 256) :: ((payload ++ [206]) ++ rest)).drop (8 + L)
      = rest := by
    have h8 : 8 + L = 7 + (1 + L) := by omega
    rw [h8, drop_seven]
    have hlen1 : (payload ++ [206]).length = 1 + L := by simp [hL]; omega
    rw [← hlen1, List.drop_left]
  rw [frame]
  rw [hb0]
  simp only [hlen7, hread32, hread16, hterm, hpay, hdrop]
  rw [if_neg (by simp), if_neg (by simpa using ht65), if_pos (by simpa [byteAt] using ht),
    if_neg (by omega), if_neg (by omega), if_neg (by simp)]

theorem frame_framedBytes_strictPre (t ch : Nat) (payload : List Nat)
    (ht : t = 1 ∨ t = 2 ∨ t = 3 ∨ t = 8) (hlen : payload.length < 4294967296)
    (pre tl : List Nat) (happ : pre ++ tl = framedBytes t ch payload) (hne : tl ≠ []) :
    frame pre = ParseResult.incomplete := by
  have ht65 : t ≠ 65 := by rcases ht with h | h | h | h <;> omega
  set L := payload.length with hL
  rw [framedBytes_cons] at happ
  have htot : pre.length + tl.length = 8 + L := by
    have := congrArg List.length happ
    simp at this
    omega
  have htl1 : 1 ≤ tl.length := by
    cases tl with
    | nil => exact absurd rfl hne
    | cons a l => simp
  have hlt : pre.length < 8 + L := by omega
  by_cases h0 : pre.length = 0
  · rw [frame, if_pos h0]
  · have hb : ∀ i, i < pre.length → byteAt pre i =
        byteAt (t :: (ch / 256 % 256) :: (ch % 256) :: (L / 16777216 % 256) ::
          (L / 65536 % 256) :: (L / 256 % 256) :: (L % 256) :: (payload ++ [206])) i := by
      intro i hi
      rw [← happ, byteAt_append_left _ _ _ hi]
    have hb0 : byteAt pre 0 = t := by
      rw [hb 0 (by omega)]
      rfl
    by_cases h7 : pre.length < 7
    · rw [frame, if_neg h0, hb0, if_neg ht65, if_pos ht, if_pos h7]
    · have hread32 : readU32At pre 3 = L := by
        rw [readU32At, hb 3 (by omega), hb 4 (by omega), hb 5 (by omega), hb 6 (by omega)]
        show L / 16777216 % 256 * 16777216 + L / 65536 % 256 * 65536 +
          L / 256 % 256 * 256 + L % 256 = L
        omega
      rw [frame, if_neg h0, hb0, if_neg ht65, if_pos ht, if_neg h7]
      simp only [hread32]
      rw [if_pos hlt]

theorem frame_magic_append (rest : List Nat) :
    frame (magic ++ rest) = ParseResult.done rest Frame.protocolHeader := by
  have htake : (magic ++ rest).take 8 = magic := by
    have h8 : (8 : Nat) = magic.length := rfl
    rw [h8, List.take_left]
  have hdrop : (magic ++ rest).drop 8 = rest := by
    have h8 : (8 : Nat) = magic.length := rfl
    rw [h8, List.drop_left]
  rw [frame]
  rw [if_neg (by simp [magic]), if_pos (by simp [magic, byteAt]), if_neg (by simp [magic]),
    if_pos htake, hdrop]

theorem frame_magic_strictPre (pre tl : List Nat) (happ : pre ++ tl = magic)
    (hne : tl ≠ []) : frame pre = ParseResult.incomplete := by
  have htl1 : 1 ≤ tl.length := by
    cases tl with
    | nil => exact absurd rfl hne
    | cons a l => simp
  have htot : pre.length + tl.length = 8 := by
    have := congrArg List.length happ
    simpa [magic] using this
  have hlt : pre.length < 8 := by omega
  by_cases h0 : pre.length = 0
  · rw [frame, if_pos h0]
  · have hb0 : byteAt pre 0 = 65 := by
      rw [(byteAt_append_left pre tl 0 (by omega)).symm, happ]
      rfl
    have hpre : pre = magic.take pre.length := by
      rw [← happ, List.take_left]
    rw [frame, if_neg h0, if_pos hb0, if_pos hlt, if_pos hpre]

/-- The frame actually produced by parsing a frame's own encoding: channel
and ids come back reduced mod their wire width, the heartbeat channel is
the `0` the generator wrote. -/
def decodedFrame : Frame → Frame
  | .protocolHeader => .protocolHeader
  | .method channel classId methodId args =>
      .method (channel % 65536) (classId % 65536) (methodId % 65536) args
  | .header channel classId bodySize =>
      .header (channel % 65536) (classId % 65536) (bodySize % 18446744073709551616)
  | .body channel data => .body (channel % 65536) data
  | .heartbeat _ => .heartbeat 0

theorem parsePayload_method (c cls mid : Nat) (args : List Nat) :
    parsePayload 1 c (payloadBytes (Frame.method 0 cls mid args)) =
      some (Frame.method c (cls % 65536) (mid % 65536) args) := by
  simp only [payloadBytes, u16be, parsePayload]
  norm_num [readU16At, byteAt]
  exact ⟨by omega, by omega⟩

theorem parsePayload_header (c cls sz : Nat) :
    parsePayload 2 c (payloadBytes (Frame.header 0 cls sz)) =
      some (Frame.header c (cls % 65536) (sz % 18446744073709551616)) := by
  simp only [payloadBytes, u16be, u64be, u32be, parsePayload]
  norm_num [readU16At, readU64At, readU32At, byteAt]
  constructor
  · omega
  omega

theorem frame_encFrame_append (f : Frame) (rest : List Nat) (hwf : wfFrame f) :
    frame (encFrame f ++ rest) = ParseResult.done rest (decodedFrame f) := by
  cases f with
  | protocolHeader => exact frame_magic_append rest
  | method channel classId methodId args =>
    rw [encFrame, frame_framedBytes_append 1 channel _ rest (by omega) hwf]
    have : payloadBytes (Frame.method channel classId methodId args) =
        payloadBytes (Frame.method 0 classId methodId args) := rfl
    rw [this, parsePayload_method (channel % 65536) classId methodId args]
    rfl
  | header channel classId bodySize =>
    rw [encFrame, frame_framedBytes_append 2 channel _ rest (by omega) hwf]
    have : payloadBytes (Frame.header channel classId bodySize) =
        payloadBytes (Frame.header 0 classId bodySize) := rfl
    rw [this, parsePayload_header (channel % 65536) classId bodySize]
    rfl
  | body channel data =>
    rw [encFrame, frame_framedBytes_append 3 channel _ rest (by omega) hwf]
    rfl
  | heartbeat channel =>
    rw [encFrame, frame_framedBytes_append 8 0 _ rest (by omega) hwf]
    rfl

theorem frame_encFrame_strictPre (f : Frame) (pre tl : List Nat) (hwf : wfFrame f)
    (happ : pre ++ tl = encFrame f) (hne : tl ≠ []) :
    frame pre = ParseResult.incomplete := by
  cases f with
  | protocolHeader => exact frame_magic_strictPre pre tl happ hne
  | method channel classId methodId args =>
    exact frame_framedBytes_strictPre 1 channel _ (by omega) hwf pre tl happ hne
  | header channel classId bodySize =>
    exact frame_framedBytes_strictPre 2 channel _ (by omega) hwf pre tl happ hne
  | body channel data =>
    exact frame_framedBytes_strictPre 3 channel _ (by omega) hwf pre tl happ hne
  | heartbeat channel =>
    exact frame_framedBytes_strictPre 8 0 _ (by omega) hwf pre tl happ hne

theorem encodeLoop_of_le (f : Frame) (L : Nat) (buf : List Nat)
    (h : (encFrame f).length ≤ buf.length) :
    encodeLoop f L buf = Except.ok (encFrame f) := by
  have hg : genFrame f buf = Except.ok (encFrame f).length := by
    rw [genFrame, if_pos h]
  rw [encodeLoop, hg]
  simp [genWrite, List.take_left]

theorem encodeLoop_drain (f : Frame) (L : Nat) (buf : List Nat) (h : L ≤ buf.length) :
    encodeLoop f L buf = Except.ok (encFrame f) := by
  by_cases hle : (encFrame f).length ≤ buf.length
  · exact encodeLoop_of_le f L buf hle
  · have hg : genFrame f buf = Except.error (GenError.bufferTooSmall (encFrame f).length) := by
      rw [genFrame, if_neg hle]
    rw [encodeLoop, hg]
    dsimp only
    rw [dif_pos (by omega)]
    apply encodeLoop_of_le
    simp
    omega

theorem encode_ok (f : Frame) (buf : List Nat) : encode f buf = Except.ok (encFrame f) := by
  rw [encode]
  by_cases h : buf.length < 8192
  · rw [if_pos h]
    apply encodeLoop_drain
    simp
  · rw [if_neg h]
    exact encodeLoop_drain f buf.length buf le_rfl

/-! ### Internal RPC (src/internal_rpc.rs)

The command queue, handle and dispatcher are embedded directly.  The
pieces they call into that are not under `src/` — `Channels`, the per
channel futures (`basic_ack` …) and `PromiseResolver` — are modelled from
the spec: §9 models a resolver as a single-shot cell completed by exactly
one producer (`resolver.swear(res)`), and a channel operation as a future
whose eventual outcome is success or an error, so a channel is a record of
opaque outcomes, one per operation the dispatcher can start on it.
Spawned tasks are recorded as effects carrying the single completion the
task will perform. -/

/-- Opaque lapin `Error` values. -/
structure AmqpError where
  code : Nat
  deriving DecidableEq, Repr

instance {ε α : Type} [DecidableEq ε] [DecidableEq α] : DecidableEq (Except ε α) := fun a b =>
  match a, b with
  | .error e1, .error e2 =>
    if h : e1 = e2 then isTrue (by rw [h]) else isFalse (by intro hc; cases hc; exact h rfl)
  | .error _, .ok _ => isFalse (by intro hc; cases hc)
  | .ok _, .error _ => isFalse (by intro hc; cases hc)
  | .ok v1, .ok v2 =>
    if h : v1 = v2 then isTrue (by rw [h]) else isFalse (by intro hc; cases hc; exact h rfl)

/-- Options of `Basic.Ack` (`BasicAckOptions`). -/
structure BasicAckOptions where
  multiple : Bool
  deriving DecidableEq, Repr

/-- Options of `Basic.Nack` (`BasicNackOptions`). -/
structure BasicNackOptions where
  multiple : Bool
  requeue : Bool
  deriving DecidableEq, Repr

/-- Options of `Basic.Reject` (`BasicRejectOptions`). -/
structure BasicRejectOptions where
  requeue : Bool
  deriving DecidableEq, Repr

/-- Opaque `ConsumerStatus` handle. -/
structure ConsumerStatus where
  id : Nat
  deriving DecidableEq, Repr

/-- Resolvers are identified by an id; §9 makes them single-shot cells. -/
abbrev ResolverId := Nat

/-- The exhaustive internal command set (src/internal_rpc.rs lines
151–164, matching the table of §4.5). -/
inductive InternalCommand where
  | basicAck (channelId : Nat) (deliveryTag : Nat) (options : BasicAckOptions)
      (resolver : ResolverId)
  | basicNack (channelId : Nat) (deliveryTag : Nat) (options : BasicNackOptions)
      (resolver : ResolverId)
  | basicReject (channelId : Nat) (deliveryTag : Nat) (options : BasicRejectOptions)
      (resolver : ResolverId)
  | cancelConsumer (channelId : Nat) (consumerTag : String) (status : ConsumerStatus)
  | closeChannel (channelId : Nat) (replyCode : Nat) (replyText : String)
  | closeConnection (replyCode : Nat) (replyText : String) (classId : Nat) (methodId : Nat)
  | sendConnectionCloseOk (error : AmqpError)
  | removeChannel (channelId : Nat) (error : AmqpError)
  | setConnectionClosing
  | setConnectionClosed (error : AmqpError)
  | setConnectionError (error : AmqpError)
  deriving DecidableEq, Repr

/-- Modelled from the spec: a channel as seen by the dispatcher.  Each
field is the eventual outcome of the corresponding channel future
(`basic_ack`, `basic_nack`, `basic_reject`, `do_basic_cancel`, `close`,
`connection_close`, `connection_close_ok`); the dispatcher never looks
inside them, it only wires them to resolvers or to the error path. -/
structure ChannelModel where
  basicAckResult : Except AmqpError Unit
  basicNackResult : Except AmqpError Unit
  basicRejectResult : Except AmqpError Unit
  cancelResult : Except AmqpError Unit
  closeResult : Except AmqpError Unit
  connCloseResult : Except AmqpError Unit
  connCloseOkResult : Except AmqpError Unit

/-- Modelled from the spec: the channel table (`Channels`).  `table` is
`Channels::get`; the three result fields are the outcomes of the direct
(non-spawning) operations `remove`, `set_connection_closed` and
`set_connection_error`. -/
structure ChannelsModel where
  table : Nat → Option ChannelModel
  removeResult : Nat → Except AmqpError Unit
  setClosedResult : Except AmqpError Unit
  setErrorResult : Except AmqpError Unit

/-- Observable effects of running one internal command.
`spawnedWithResolver r o` records that
`register_internal_future_with_resolver` spawned a task that will run the
future to outcome `o` and then perform the single completion
`resolver.swear(o)`; `spawnedInternal o` records a task spawned by
`register_internal_future` (on an `Err` outcome it sends
`SetConnectionError`); the remaining effects are the direct channel-table
mutations. -/
inductive RunEffect where
  | spawnedWithResolver (resolver : ResolverId) (outcome : Except AmqpError Unit)
  | spawnedInternal (outcome : Except AmqpError Unit)
  | removedChannel (channelId : Nat) (error : AmqpError)
  | setClosing
  | setClosed (error : AmqpError)
  | setError (error : AmqpError)
  deriving DecidableEq, Repr

namespace InternalRPC

/-- Model of `InternalRPC::run` (src/internal_rpc.rs lines 188–262): dispatch one
command against the channel table.  Commands that target a channel do
nothing and return `Ok(())` when `channels.get` finds no channel
(`unwrap_or(Ok(()))`); the executor's `spawn` itself is modelled as always
succeeding (the spawned work is returned as an effect). -/
def run (cmd : InternalCommand) (channels : ChannelsModel) :
    Except AmqpError Unit × List RunEffect :=
  match cmd with
  | .basicAck channelId _ _ resolver =>
    match channels.table channelId with
    | some channel => (Except.ok (), [RunEffect.spawnedWithResolver resolver channel.basicAckResult])
    | none => (Except.ok (), [])
  | .basicNack channelId _ _ resolver =>
    match channels.table channelId with
    | some channel => (Except.ok (), [RunEffect.spawnedWithResolver resolver channel.basicNackResult])
    | none => (Except.ok (), [])
  | .basicReject channelId _ _ resolver =>
    match channels.table channelId with
    | some channel => (Except.ok (), [RunEffect.spawnedWithResolver resolver channel.basicRejectResult])
    | none => (Except.ok (), [])
  | .cancelConsumer channelId _ _ =>
    match channels.table channelId with
    | some channel => (Except.ok (), [RunEffect.spawnedInternal channel.cancelResult])
    | none => (Except.ok (), [])
  | .closeChannel channelId _ _ =>
    match channels.table channelId with
    | some channel => (Except.ok (), [RunEffect.spawnedInternal channel.closeResult])
    | none => (Except.ok (), [])
  | .closeConnection _ _ _ _ =>
    match channels.table 0 with
    | some channel0 => (Except.ok (), [RunEffect.spawnedInternal channel0.connCloseResult])
    | none => (Except.ok (), [])
  | .sendConnectionCloseOk _ =>
    match channels.table 0 with
    | some channel => (Except.ok (), [RunEffect.spawnedInternal channel.connCloseOkResult])
    | none => (Except.ok (), [])
  | .removeChannel channelId error =>
    (channels.removeResult channelId, [RunEffect.removedChannel channelId error])
  | .setConnectionClosing => (Except.ok (), [RunEffect.setClosing])
  | .setConnectionClosed error => (channels.setClosedResult, [RunEffect.setClosed error])
  | .setConnectionError error => (channels.setErrorResult, [RunEffect.setError error])

/-- Model of `InternalRPC::poll` (lines 181–186): `while let Ok(command) =
self.rpc.try_recv() { self.run(command, channels)?; }` — run the queued
commands front to back; the `?` stops at the first failing `run`,
otherwise the queue is drained and the result is `Ok(())`. -/
def poll (queue : List InternalCommand) (channels : ChannelsModel) :
    Except AmqpError Unit × List RunEffect :=
  match queue with
  | [] => (Except.ok (), [])
  | cmd :: rest =>
    let (res, effects) := run cmd channels
    match res with
    | Except.ok _ =>
      let (res', effects') := poll rest channels
      (res', effects ++ effects')
    | Except.error e => (Except.error e, effects)

end InternalRPC

/-- Number of completions a resolver receives from the spawned tasks of a
run: `resolver.swear` is performed once per `spawnedWithResolver` task
(§9: a single-shot cell completed by exactly one producer). -/
def resolverCompletions (effects : List RunEffect) (r : ResolverId) : Nat :=
  (effects.filter fun e =>
    match e with
    | RunEffect.spawnedWithResolver r' _ => decide (r' = r)
    | _ => false).length

/-- The channel a command is addressed to (`channels.get` argument):
connection-scope commands go through channel `0`; the direct table
mutations target no single channel lookup. -/
def targetChannel : InternalCommand → Option Nat
  | .basicAck channelId _ _ _ => some channelId
  | .basicNack channelId _ _ _ => some channelId
  | .basicReject channelId _ _ _ => some channelId
  | .cancelConsumer channelId _ _ => some channelId
  | .closeChannel channelId _ _ => some channelId
  | .closeConnection _ _ _ _ => some 0
  | .sendConnectionCloseOk _ => some 0
  | .removeChannel _ _ => none
  | .setConnectionClosing => none
  | .setConnectionClosed _ => none
  | .setConnectionError _ => none

/-- The resolver carried by a command, with the channel it is addressed
to (only `BasicAck`, `BasicNack` and `BasicReject` carry one). -/
def resolverCarried : InternalCommand → Option (Nat × ResolverId)
  | .basicAck channelId _ _ resolver => some (channelId, resolver)
  | .basicNack channelId _ _ resolver => some (channelId, resolver)
  | .basicReject channelId _ _ resolver => some (channelId, resolver)
  | _ => none

/-! ### InternalRPCHandle (src/internal_rpc.rs lines 26–143) -/

/-- The crossbeam channel as the handle sees it: whether the receiving
side (the I/O loop) is still alive, and the queued commands. -/
structure QueueState where
  receiverAlive : Bool
  queued : List InternalCommand
  deriving DecidableEq, Repr

/-- Effects of a handle call: a command enqueued on the sender, and
`SocketStateHandle::wake`. -/
inductive HandleEffect where
  | enqueued (cmd : InternalCommand)
  | wake
  deriving DecidableEq, Repr

namespace InternalRPCHandle

/-- Model of `InternalRPCHandle::send` (lines 114–119): `let _ =
self.sender.send(command); self.waker.wake();` — sending on the crossbeam
channel enqueues the command when the receiver is alive and returns an
ignored error (enqueuing nothing) when the receiver has been dropped; the
waker is woken afterwards in both cases. -/
def send (st : QueueState) (cmd : InternalCommand) : QueueState × List HandleEffect :=
  let (st', sendEffects) :=
    if st.receiverAlive then
      ({ st with queued := st.queued ++ [cmd] }, [HandleEffect.enqueued cmd])
    else (st, [])
  (st', sendEffects ++ [HandleEffect.wake])

/-- Handle method `InternalRPCHandle::basic_ack`. -/
def basic_ack (st : QueueState) (channelId deliveryTag : Nat) (options : BasicAckOptions)
    (resolver : ResolverId) : QueueState × List HandleEffect :=
  send st (InternalCommand.basicAck channelId deliveryTag options resolver)

/-- Handle method `InternalRPCHandle::basic_nack`. -/
def basic_nack (st : QueueState) (channelId deliveryTag : Nat) (options : BasicNackOptions)
    (resolver : ResolverId) : QueueState × List HandleEffect :=
  send st (InternalCommand.basicNack channelId deliveryTag options resolver)

/-- Handle method `InternalRPCHandle::basic_reject`. -/
def basic_reject (st : QueueState) (channelId deliveryTag : Nat) (options : BasicRejectOptions)
    (resolver : ResolverId) : QueueState × List HandleEffect :=
  send st (InternalCommand.basicReject channelId deliveryTag options resolver)

/-- Handle method `InternalRPCHandle::cancel_consumer`. -/
def cancel_consumer (st : QueueState) (channelId : Nat) (consumerTag : String)
    (status : ConsumerStatus) : QueueState × List HandleEffect :=
  send st (InternalCommand.cancelConsumer channelId consumerTag status)

/-- Handle method `InternalRPCHandle::close_channel`. -/
def close_channel (st : QueueState) (channelId replyCode : Nat) (replyText : String) :
    QueueState × List HandleEffect :=
  send st (InternalCommand.closeChannel channelId replyCode replyText)

/-- Handle method `InternalRPCHandle::close_connection`. -/
def close_connection (st : QueueState) (replyCode : Nat) (replyText : String)
    (classId methodId : Nat) : QueueState × List HandleEffect :=
  send st (InternalCommand.closeConnection replyCode replyText classId methodId)

/-- Handle method `InternalRPCHandle::send_connection_close_ok`. -/
def send_connection_close_ok (st : QueueState) (error : AmqpError) :
    QueueState × List HandleEffect :=
  send st (InternalCommand.sendConnectionCloseOk error)

/-- Handle method `InternalRPCHandle::remove_channel`. -/
def remove_channel (st : QueueState) (channelId : Nat) (error : AmqpError) :
    QueueState × List HandleEffect :=
  send st (InternalCommand.removeChannel channelId error)

/-- Handle method `InternalRPCHandle::set_connection_closing`. -/
def set_connection_closing (st : QueueState) : QueueState × List HandleEffect :=
  send st InternalCommand.setConnectionClosing

/-- Handle method `InternalRPCHandle::set_connection_closed`. -/
def set_connection_closed (st : QueueState) (error : AmqpError) :
    QueueState × List HandleEffect :=
  send st (InternalCommand.setConnectionClosed error)

/-- Handle method `InternalRPCHandle::set_connection_error`. -/
def set_connection_error (st : QueueState) (error : AmqpError) :
    QueueState × List HandleEffect :=
  send st (InternalCommand.setConnectionError error)

end InternalRPCHandle

/-- Number of `enqueued` effects in a handle-call trace. -/
def enqueueCount (effects : List HandleEffect) : Nat :=
  (effects.filter fun e =>
    match e with
    | HandleEffect.enqueued _ => true
    | HandleEffect.wake => false).length

/-- The body of the task spawned by
`InternalRPCHandle::register_internal_future` (lines 121–131): await the
future and, if it failed, send `SetConnectionError(err)` through the
handle; a successful future sends nothing. -/
def internalFutureTask (outcome : Except AmqpError Unit) : List InternalCommand :=
  match outcome with
  | Except.error e => [InternalCommand.setConnectionError e]
  | Except.ok _ => []

/-! ### Connection and the transport connector (futures/src/transport.rs)

`lapin_async::connection::Connection` is not under `src/`; it is modelled
from the spec.  §4.3 gives the handshake the I/O loop drives and §3 the
lifecycle: after the protocol header the connection awaits
`Connection.Start`, replies `StartOk`, awaits `Tune`, replies `TuneOk` and
sends `Open`, awaits `OpenOk` and only then transitions to `Connected`;
any unexpected frame during the handshake is an error.  Outbound frames
sit in a queue popped by `next_frame`. -/

/-- Handshake progress while `Connecting` (§4.3 steps 2, 5 and 7). -/
inductive ConnectingStep where
  | awaitingStart
  | awaitingTune
  | awaitingOpenOk
  deriving DecidableEq, Repr

/-- Connection lifecycle states (§3). -/
inductive ConnectionState where
  | initial
  | connecting (step : ConnectingStep)
  | connected
  | closing
  | closed
  | error
  deriving DecidableEq, Repr

/-- Modelled from the spec: the connection as the transport sees it — its
lifecycle state and the outbound frame queue served by `next_frame`. -/
structure Connection where
  state : ConnectionState
  sendQueue : List Frame
  deriving DecidableEq, Repr

/-- Reply frame `Connection.StartOk` (class 10, method 11). -/
def startOkFrame : Frame := Frame.method 0 10 11 []

/-- Reply frame `Connection.TuneOk` (class 10, method 31). -/
def tuneOkFrame : Frame := Frame.method 0 10 31 []

/-- Request frame `Connection.Open` (class 10, method 40). -/
def openFrame : Frame := Frame.method 0 10 40 []

namespace Connection

/-- Modelled from the spec: `Connection::handle_frame` during the
handshake (§4.3).  `Start` (10,10) triggers `StartOk`; `Tune` (10,30)
triggers `TuneOk` then `Open`; `OpenOk` (10,41) reaches `Connected`; any
other frame while connecting is a protocol violation and moves the
connection to `Error`.  Outside the handshake the frame is routed to the
channel layer, which this model leaves untouched. -/
def handle_frame (c : Connection) (f : Frame) : Connection :=
  match c.state with
  | ConnectionState.connecting step =>
    match step, f with
    | ConnectingStep.awaitingStart, Frame.method 0 10 10 _ =>
      { state := ConnectionState.connecting ConnectingStep.awaitingTune,
        sendQueue := c.sendQueue ++ [startOkFrame] }
    | ConnectingStep.awaitingTune, Frame.method 0 10 30 _ =>
      { state := ConnectionState.connecting ConnectingStep.awaitingOpenOk,
        sendQueue := c.sendQueue ++ [tuneOkFrame, openFrame] }
    | ConnectingStep.awaitingOpenOk, Frame.method 0 10 41 _ =>
      { c with state := ConnectionState.connected }
    | _, _ => { c with state := ConnectionState.error }
  | _ => c

/-- Drain of the `while let Some(f) = transport.conn.next_frame()` loop in
the connector: every queued frame is popped and started on the upstream
sink; the connection keeps its state. -/
def drainFrames (c : Connection) : Connection × List Frame :=
  ({ c with sendQueue := [] }, c.sendQueue)

end Connection

/-- The transport: the framed upstream plus the connection (the upstream
socket itself lives outside the model; its poll results are inputs). -/
structure AMQPTransport where
  conn : Connection
  deriving DecidableEq, Repr

/-- What `transport.upstream.poll()` produced: `Ok(Async::Ready(t))` with
`t` an `Option<Frame>`, `Ok(Async::NotReady)`, or `Err`. -/
inductive UpstreamPoll where
  | frameReady (f : Option Frame)
  | notReady
  | upstreamError
  deriving DecidableEq, Repr

/-- Rust panics surfaced by the model (an `unwrap` of `None`). -/
inductive RustPanic where
  | unwrapOnNone
  deriving DecidableEq, Repr

/-- Outcome of one `AMQPTransportConnector::poll`. -/
inductive ConnectorOutcome where
  | ready (t : AMQPTransport)
  | notReady
  | pollError
  deriving DecidableEq, Repr

namespace AMQPTransportConnector

/-- Model of `AMQPTransportConnector::poll` (futures/src/transport.rs lines
170–217).  The stored transport is `take().unwrap()`-ed — polling with no
stored transport panics.  If the connection is already `Connected` the
transport is yielded.  Otherwise the upstream is polled: `NotReady` and
`Ready(None)` restore the transport and return `NotReady`; `Err` returns
the error without restoring the transport; `Ready(Some(frame))` hands the
frame to the connection, drains the outbound queue, then yields the
transport when the connection has become `Connected` and otherwise
restores it and returns `NotReady`. -/
def poll (transport : Option AMQPTransport) (up : UpstreamPoll) :
    Except RustPanic (ConnectorOutcome × Option AMQPTransport) :=
  match transport with
  | none => Except.error RustPanic.unwrapOnNone
  | some t =>
    if t.conn.state = ConnectionState.connected then
      Except.ok (ConnectorOutcome.ready t, none)
    else
      match up with
      | UpstreamPoll.notReady => Except.ok (ConnectorOutcome.notReady, some t)
      | UpstreamPoll.upstreamError => Except.ok (ConnectorOutcome.pollError, none)
      | UpstreamPoll.frameReady none => Except.ok (ConnectorOutcome.notReady, some t)
      | UpstreamPoll.frameReady (some f) =>
        let conn1 := t.conn.handle_frame f
        let (conn2, _sent) := conn1.drainFrames
        let t' : AMQPTransport := { conn := conn2 }
        if t'.conn.state = ConnectionState.connected then
          Except.ok (ConnectorOutcome.ready t', none)
        else
          Except.ok (ConnectorOutcome.notReady, some t')

end AMQPTransportConnector

/-! ### Reactor poll tasks (async-lapin/src/lib.rs lines 147–163) -/

/-- Socket events (`SocketEvent`) as sent to the socket state handle. -/
inductive SocketEvent where
  | readable
  | writable
  | error
  deriving DecidableEq, Repr

/-- The `poll_read` task: await readability; an `Err` logs and sends
`SocketEvent::Error` then returns, otherwise `SocketEvent::Readable` is
sent. -/
def poll_read (readiness : Except AmqpError Unit) : List SocketEvent :=
  match readiness with
  | Except.error _ => [SocketEvent.error]
  | Except.ok _ => [SocketEvent.readable]

/-- The `poll_write` task: await writability; an `Err` logs and sends
`SocketEvent::Error` then returns, otherwise `SocketEvent::Writable` is
sent. -/
def poll_write (readiness : Except AmqpError Unit) : List SocketEvent :=
  match readiness with
  | Except.error _ => [SocketEvent.error]
  | Except.ok _ => [SocketEvent.writable]

/-- An empty channel table whose direct operations all succeed. -/
def chansEmpty : ChannelsModel :=
  { table := fun _ => none
    removeResult := fun _ => Except.ok ()
    setClosedResult := Except.ok ()
    setErrorResult := Except.ok () }

/-- A channel stub whose operations all succeed. -/
def chanStub : ChannelModel :=
  { basicAckResult := Except.ok ()
    basicNackResult := Except.ok ()
    basicRejectResult := Except.ok ()
    cancelResult := Except.ok ()
    closeResult := Except.ok ()
    connCloseResult := Except.ok ()
    connCloseOkResult := Except.ok () }

/-- A channel table holding only channel 1 (as `chanStub`). -/
def chansOne : ChannelsModel :=
  { table := fun channelId => if channelId = 1 then some chanStub else none
    removeResult := fun _ => Except.ok ()
    setClosedResult := Except.ok ()
    setErrorResult := Except.ok () }


/-! ### Claims -/

/-- Claim C2: for every buffer whose contents are a strict prefix of an
encoded frame, `AMQPCodec::decode` returns no frame (`Incomplete`,
surfaced as `Ok(None)`) and leaves the buffer's contents and length
unchanged; only on a complete successful parse does it remove the
consumed bytes from the front of the buffer and return the frame. -/
theorem c2_decode_incremental (f : Frame) (hwf : wfFrame f) :
    (∀ pre tl, pre ++ tl = encFrame f → tl ≠ [] →
      decode pre = (Except.ok none, pre)) ∧
    (∀ rest, decode (encFrame f ++ rest) =
      (Except.ok (some (decodedFrame f)), rest)) := by
  constructor
  · intro pre tl happ hne
    rw [decode, frame_encFrame_strictPre f pre tl hwf happ hne]
  · intro rest
    rw [decode, frame_encFrame_append f rest hwf]

/-- Witness for C2 at a concrete heartbeat frame: the 3-byte strict
prefix decodes to `Ok(None)` with the buffer untouched, and the full
encoding followed by two stray bytes decodes to the frame leaving exactly
the stray bytes. -/
theorem c2_witness :
    decode [8, 0, 0] = (Except.ok none, [8, 0, 0]) ∧
    decode (encFrame (Frame.heartbeat 0) ++ [1, 2]) =
      (Except.ok (some (decodedFrame (Frame.heartbeat 0))), [1, 2]) := by
  constructor
  · exact (c2_decode_incremental (Frame.heartbeat 0) (by decide)).1
      [8, 0, 0] [0, 0, 0, 0, 206] (by decide) (by decide)
  · exact (c2_decode_incremental (Frame.heartbeat 0) (by decide)).2 [1, 2]

/-- Claim C3: for every frame and every destination buffer too small to
hold that frame's encoding, the generator returns the required size
(`BufferTooSmall(needed)`) to the calling loop rather than truncating the
output, and the caller — the grow-and-retry loop of `AMQPCodec::encode` —
grows the buffer and retries until the full encoding is produced. -/
theorem c3_encode_required_size (f : Frame) (buf : List Nat)
    (h : buf.length < (encFrame f).length) :
    genFrame f buf = Except.error (GenError.bufferTooSmall (encFrame f).length) ∧
    encode f buf = Except.ok (encFrame f) := by
  constructor
  · rw [genFrame, if_neg (by omega)]
  · exact encode_ok f buf

/-- Witness for C3: a heartbeat frame (8 encoded bytes) against an empty
buffer. -/
theorem c3_witness :
    genFrame (Frame.heartbeat 0) [] =
      Except.error (GenError.bufferTooSmall (encFrame (Frame.heartbeat 0)).length) ∧
    encode (Frame.heartbeat 0) [] = Except.ok (encFrame (Frame.heartbeat 0)) :=
  c3_encode_required_size (Frame.heartbeat 0) [] (by decide)

/-- Claim C9: after `AMQPCodec::encode` returns `Ok`, the destination
buffer contains exactly the encoding of the frame: the generator writes
the frame starting at offset 0 and the buffer is truncated to the
encoded length, so bytes present before the call are overwritten or
discarded, never preserved and appended to. -/
theorem c9_encode_exact_buffer (f : Frame) (buf : List Nat) :
    encode f buf = Except.ok (encFrame f) ∧
    List.take (encFrame f).length (genWrite f buf) = encFrame f := by
  refine ⟨encode_ok f buf, ?_⟩
  rw [genWrite, List.take_left]

/-- Claim C10: the grow-and-retry loop of `AMQPCodec::encode` terminates
for every frame: a `BufferTooSmall(sz)` result implies `sz` exceeds the
buffer's current length, which is at least the pre-call length `len0`, so
the extension by `sz - len0` never underflows and brings the buffer
length to at least `sz`, after which the generator succeeds and the loop
returns the full encoding. -/
theorem c10_grow_and_retry_terminates (f : Frame) (len0 : Nat) (buf : List Nat) (sz : Nat)
    (hinv : len0 ≤ buf.length)
    (hg : genFrame f buf = Except.error (GenError.bufferTooSmall sz)) :
    buf.length < sz ∧ len0 < sz ∧
    sz ≤ (buf ++ List.replicate (sz - len0) 0).length ∧
    genFrame f (buf ++ List.replicate (sz - len0) 0) = Except.ok (encFrame f).length ∧
    encodeLoop f len0 buf = Except.ok (encFrame f) := by
  have hsz : sz = (encFrame f).length ∧ ¬ (encFrame f).length ≤ buf.length := by
    by_cases h : (encFrame f).length ≤ buf.length
    · rw [genFrame, if_pos h] at hg
      cases hg
    · rw [genFrame, if_neg h] at hg
      simp at hg
      exact ⟨hg.symm, h⟩
  obtain ⟨hsz, hbuf⟩ := hsz
  have h1 : buf.length < sz := by omega
  have h2 : len0 < sz := by omega
  have h3 : sz ≤ (buf ++ List.replicate (sz - len0) 0).length := by
    simp
    omega
  refine ⟨h1, h2, h3, ?_, encodeLoop_drain f len0 buf hinv⟩
  rw [genFrame, if_pos (by omega)]

/-- Witness for C10: a 8200-byte body frame (8208 encoded bytes) against
the 8192-byte zero buffer the encode entry produces for an empty input:
the generator reports 8208, the extension reaches it, the loop returns
the encoding. -/
theorem c10_witness :
    encodeLoop (Frame.body 1 (List.replicate 8200 7)) 0 (List.replicate 8192 0) =
      Except.ok (encFrame (Frame.body 1 (List.replicate 8200 7))) := by
  have henc : (encFrame (Frame.body 1 (List.replicate 8200 7))).length = 8208 := by
    rw [encFrame, framedBytes_length]
    simp only [payloadBytes, List.length_replicate]
  have h := c10_grow_and_retry_terminates (Frame.body 1 (List.replicate 8200 7)) 0
    (List.replicate 8192 0) 8208 (Nat.zero_le _)
    (by rw [genFrame, henc, if_neg (by rw [List.length_replicate]; omega)])
  exact h.2.2.2.2

/-- Counterexample to claim C1 as stated: a `BasicAck` carrying resolver
`0` run against an empty channel table is a no-op — the resolver receives
zero completions, not exactly one. -/
theorem c1_counterexample :
    InternalRPC.run (InternalCommand.basicAck 1 1 { multiple := false } 0) chansEmpty =
      (Except.ok (), []) ∧
    ¬ resolverCompletions
        (InternalRPC.run (InternalCommand.basicAck 1 1 { multiple := false } 0) chansEmpty).2 0
        = 1 := by
  constructor
  · rfl
  · decide

/-- Claim C1 (amended): for every RPC command carrying a resolver
(`BasicAck`, `BasicNack`, `BasicReject`) run by `InternalRPC::run`, the
resolver is completed exactly once — with the outcome of the channel
future, success or error — when the named channel exists in the channel
table; when the channel is absent the command is a no-op and the resolver
is dropped without ever being completed. -/
theorem c1_resolver_completed_once (cmd : InternalCommand) (chans : ChannelsModel)
    (ch : Nat) (r : ResolverId) (hres : resolverCarried cmd = some (ch, r)) :
    ((∃ c, chans.table ch = some c) →
      resolverCompletions (InternalRPC.run cmd chans).2 r = 1) ∧
    (chans.table ch = none →
      InternalRPC.run cmd chans = (Except.ok (), []) ∧
      resolverCompletions (InternalRPC.run cmd chans).2 r = 0) := by
  cases cmd <;> simp only [resolverCarried, Option.some.injEq, Prod.mk.injEq,
    reduceCtorEq] at hres
  case basicAck channelId tag opts resolver =>
    obtain ⟨rfl, rfl⟩ := hres
    constructor
    · rintro ⟨c, hc⟩
      rw [InternalRPC.run, hc]
      simp [resolverCompletions]
    · intro hc
      rw [InternalRPC.run, hc]
      exact ⟨rfl, rfl⟩
  case basicNack channelId tag opts resolver =>
    obtain ⟨rfl, rfl⟩ := hres
    constructor
    · rintro ⟨c, hc⟩
      rw [InternalRPC.run, hc]
      simp [resolverCompletions]
    · intro hc
      rw [InternalRPC.run, hc]
      exact ⟨rfl, rfl⟩
  case basicReject channelId tag opts resolver =>
    obtain ⟨rfl, rfl⟩ := hres
    constructor
    · rintro ⟨c, hc⟩
      rw [InternalRPC.run, hc]
      simp [resolverCompletions]
    · intro hc
      rw [InternalRPC.run, hc]
      exact ⟨rfl, rfl⟩

/-- Witness for the amended C1: a `BasicNack` with resolver `7` on
channel 1, which is present in `chansOne` — exactly one completion. -/
theorem c1_witness :
    resolverCompletions
      (InternalRPC.run
        (InternalCommand.basicNack 1 2 { multiple := true, requeue := false } 7) chansOne).2 7
      = 1 :=
  (c1_resolver_completed_once
    (InternalCommand.basicNack 1 2 { multiple := true, requeue := false } 7)
    chansOne 1 7 rfl).1 ⟨chanStub, rfl⟩

/-- Claim C5: each invocation of `InternalRPC::poll` dequeues and runs
every command present in the internal command queue, front to back, until
the queue is empty, and returns `Ok(())` when every command ran
successfully (the effects are exactly the concatenation of each
command's effects, in queue order). -/
theorem c5_poll_drains_queue (queue : List InternalCommand) (chans : ChannelsModel)
    (h : ∀ cmd ∈ queue, (InternalRPC.run cmd chans).1 = Except.ok ()) :
    InternalRPC.poll queue chans =
      (Except.ok (), (queue.map fun cmd => (InternalRPC.run cmd chans).2).flatten) := by
  induction queue with
  | nil => rfl
  | cons cmd rest ih =>
    have hc : (InternalRPC.run cmd chans).1 = Except.ok () := h cmd (by simp)
    have hrest := ih fun c hcmem => h c (by simp [hcmem])
    rw [InternalRPC.poll]
    rcases hrun : InternalRPC.run cmd chans with ⟨res, effects⟩
    rw [hrun] at hc
    simp only at hc
    subst hc
    simp only [hrun, hrest, List.map_cons, List.flatten_cons]

/-- Witness for C5: a concrete three-command queue against `chansOne`
(one command hits channel 1, one misses, one is a direct mutation): the
queue is drained, the result is `Ok(())` and the effects concatenate in
order. -/
theorem c5_witness :
    InternalRPC.poll
      [InternalCommand.basicAck 1 1 { multiple := false } 4,
       InternalCommand.closeChannel 9 200 "bye",
       InternalCommand.setConnectionClosing] chansOne =
      (Except.ok (),
        [RunEffect.spawnedWithResolver 4 (Except.ok ()), RunEffect.setClosing]) := by
  have h := c5_poll_drains_queue
    [InternalCommand.basicAck 1 1 { multiple := false } 4,
     InternalCommand.closeChannel 9 200 "bye",
     InternalCommand.setConnectionClosing] chansOne
    (by intro cmd hcmd; fin_cases hcmd <;> rfl)
  rw [h]
  rfl

/-- Claim C8: every internal command addressed to a channel id absent
from the channel table (`BasicAck`, `BasicNack`, `BasicReject`,
`CancelConsumer`, `CloseChannel`, and `CloseConnection` /
`SendConnectionCloseOk` when channel 0 is absent) makes `InternalRPC::run`
perform no effect and return `Ok(())`; in particular a resolver carried
by such a command is dropped without ever being completed by `run`. -/
theorem c8_absent_channel_noop (cmd : InternalCommand) (chans : ChannelsModel) (ch : Nat)
    (htarget : targetChannel cmd = some ch) (habsent : chans.table ch = none) :
    InternalRPC.run cmd chans = (Except.ok (), []) ∧
    (∀ chR r, resolverCarried cmd = some (chR, r) →
      resolverCompletions (InternalRPC.run cmd chans).2 r = 0) := by
  cases cmd <;> simp only [targetChannel, Option.some.injEq, reduceCtorEq] at htarget <;>
    subst htarget <;>
    rw [InternalRPC.run, habsent] <;>
    exact ⟨rfl, fun chR r hres => rfl⟩

/-- Witness for C8: a `BasicReject` carrying resolver 3, addressed to
channel 5, which is absent from `chansOne`. -/
theorem c8_witness :
    InternalRPC.run (InternalCommand.basicReject 5 1 { requeue := true } 3) chansOne =
      (Except.ok (), []) ∧
    resolverCompletions
      (InternalRPC.run (InternalCommand.basicReject 5 1 { requeue := true } 3) chansOne).2 3
      = 0 := by
  have h := c8_absent_channel_noop (InternalCommand.basicReject 5 1 { requeue := true } 3)
    chansOne 5 rfl rfl
  exact ⟨h.1, h.2 5 3 rfl⟩

/-- Counterexample to claim C6 as stated: when the queue's receiver has
been dropped, `InternalRPCHandle::send` enqueues nothing — the crossbeam
send fails and the error is discarded — although the waker is still
woken; zero commands are enqueued, not exactly one. -/
theorem c6_counterexample :
    (InternalRPCHandle.send { receiverAlive := false, queued := [] }
      InternalCommand.setConnectionClosing).2 = [HandleEffect.wake] ∧
    enqueueCount
      (InternalRPCHandle.send { receiverAlive := false, queued := [] }
        InternalCommand.setConnectionClosing).2 = 0 :=
  ⟨rfl, rfl⟩

/-- Claim C6 (amended): every `InternalRPCHandle` method sends exactly
its command through `send`; `send` enqueues the command exactly once when
the queue's receiver is still alive and enqueues nothing when the
receiver has been dropped (the send error is ignored), and in both cases
the socket state handle's wake is invoked exactly once, afterwards. -/
theorem c6_send_enqueues_and_wakes (st : QueueState) (cmd : InternalCommand)
    (channelId deliveryTag replyCode classId methodId : Nat)
    (ackOptions : BasicAckOptions) (nackOptions : BasicNackOptions)
    (rejectOptions : BasicRejectOptions) (resolver : ResolverId)
    (consumerTag replyText : String) (status : ConsumerStatus) (error : AmqpError) :
    (InternalRPCHandle.send st cmd).2 =
      (if st.receiverAlive then [HandleEffect.enqueued cmd] else []) ++ [HandleEffect.wake] ∧
    (InternalRPCHandle.send st cmd).1.queued =
      (if st.receiverAlive then st.queued ++ [cmd] else st.queued) ∧
    enqueueCount (InternalRPCHandle.send st cmd).2 =
      (if st.receiverAlive then 1 else 0) ∧
    InternalRPCHandle.basic_ack st channelId deliveryTag ackOptions resolver =
      InternalRPCHandle.send st
        (InternalCommand.basicAck channelId deliveryTag ackOptions resolver) ∧
    InternalRPCHandle.basic_nack st channelId deliveryTag nackOptions resolver =
      InternalRPCHandle.send st
        (InternalCommand.basicNack channelId deliveryTag nackOptions resolver) ∧
    InternalRPCHandle.basic_reject st channelId deliveryTag rejectOptions resolver =
      InternalRPCHandle.send st
        (InternalCommand.basicReject channelId deliveryTag rejectOptions resolver) ∧
    InternalRPCHandle.cancel_consumer st channelId consumerTag status =
      InternalRPCHandle.send st
        (InternalCommand.cancelConsumer channelId consumerTag status) ∧
    InternalRPCHandle.close_channel st channelId replyCode replyText =
      InternalRPCHandle.send st
        (InternalCommand.closeChannel channelId replyCode replyText) ∧
    InternalRPCHandle.close_connection st replyCode replyText classId methodId =
      InternalRPCHandle.send st
        (InternalCommand.closeConnection replyCode replyText classId methodId) ∧
    InternalRPCHandle.send_connection_close_ok st error =
      InternalRPCHandle.send st (InternalCommand.sendConnectionCloseOk error) ∧
    InternalRPCHandle.remove_channel st channelId error =
      InternalRPCHandle.send st (InternalCommand.removeChannel channelId error) ∧
    InternalRPCHandle.set_connection_closing st =
      InternalRPCHandle.send st InternalCommand.setConnectionClosing ∧
    InternalRPCHandle.set_connection_closed st error =
      InternalRPCHandle.send st (InternalCommand.setConnectionClosed error) ∧
    InternalRPCHandle.set_connection_error st error =
      InternalRPCHandle.send st (InternalCommand.setConnectionError error) := by
  refine ⟨?_, ?_, ?_, rfl, rfl, rfl, rfl, rfl, rfl, rfl, rfl, rfl, rfl, rfl⟩ <;>
    cases hst : st.receiverAlive <;>
    simp [InternalRPCHandle.send, enqueueCount, hst]

/-- Counterexample to claim C4 as stated: an upstream I/O fault during
`AMQPTransportConnector::poll` returns the error but neither transitions
the connection nor restores the transport (`self.transport` stays
`None`), and the next poll of the connector panics on
`self.transport.take().unwrap()` rather than reaching any terminal
state. -/
theorem c4_counterexample :
    AMQPTransportConnector.poll
      (some { conn := { state := ConnectionState.connecting ConnectingStep.awaitingStart,
                        sendQueue := [] } })
      UpstreamPoll.upstreamError = Except.ok (ConnectorOutcome.pollError, none) ∧
    AMQPTransportConnector.poll none UpstreamPoll.notReady =
      Except.error RustPanic.unwrapOnNone :=
  ⟨rfl, rfl⟩

/-- Claim C4 (amended): on a remote or I/O fault the reactor's poll tasks
send `SocketEvent::Error` instead of panicking, and a failed internal
future is converted by the spawned wrapper into a `SetConnectionError`
command; the connect path, however, merely propagates an upstream error
to the caller without restoring the transport, so the very next poll of
the connector panics on `unwrap` instead of transitioning the connection
or rejecting resolvers. -/
theorem c4_fault_paths (e : AmqpError) (t : AMQPTransport)
    (hnc : t.conn.state ≠ ConnectionState.connected) :
    poll_read (Except.error e) = [SocketEvent.error] ∧
    poll_write (Except.error e) = [SocketEvent.error] ∧
    poll_read (Except.ok ()) = [SocketEvent.readable] ∧
    poll_write (Except.ok ()) = [SocketEvent.writable] ∧
    internalFutureTask (Except.error e) = [InternalCommand.setConnectionError e] ∧
    internalFutureTask (Except.ok ()) = [] ∧
    AMQPTransportConnector.poll (some t) UpstreamPoll.upstreamError =
      Except.ok (ConnectorOutcome.pollError, none) ∧
    AMQPTransportConnector.poll none UpstreamPoll.upstreamError =
      Except.error RustPanic.unwrapOnNone := by
  refine ⟨rfl, rfl, rfl, rfl, rfl, rfl, ?_, rfl⟩
  rw [AMQPTransportConnector.poll, if_neg hnc]

/-- Witness for the amended C4 at a concrete initial-state transport. -/
theorem c4_witness :
    AMQPTransportConnector.poll
      (some { conn := { state := ConnectionState.initial, sendQueue := [] } })
      UpstreamPoll.upstreamError = Except.ok (ConnectorOutcome.pollError, none) :=
  (c4_fault_paths { code := 1 }
    { conn := { state := ConnectionState.initial, sendQueue := [] } }
    (by decide)).2.2.2.2.2.2.1

/-- Claim C7: `AMQPTransportConnector::poll` yields the transport exactly
when the connection's state is `Connected` — the state reached on
`Connection.Open-Ok` — and in every other non-error case it returns
`NotReady` and retains the transport for the next poll. -/
theorem c7_connector_yields_iff_connected (t : AMQPTransport) (up : UpstreamPoll) :
    (∀ t' rem, AMQPTransportConnector.poll (some t) up =
        Except.ok (ConnectorOutcome.ready t', rem) →
      t'.conn.state = ConnectionState.connected) ∧
    (t.conn.state = ConnectionState.connected →
      AMQPTransportConnector.poll (some t) up =
        Except.ok (ConnectorOutcome.ready t, none)) ∧
    (t.conn.state ≠ ConnectionState.connected →
      (up = UpstreamPoll.notReady ∨ up = UpstreamPoll.frameReady none) →
      AMQPTransportConnector.poll (some t) up =
        Except.ok (ConnectorOutcome.notReady, some t)) ∧
    (∀ f, t.conn.state ≠ ConnectionState.connected →
      up = UpstreamPoll.frameReady (some f) →
      (t.conn.handle_frame f).state = ConnectionState.connected →
      AMQPTransportConnector.poll (some t) up =
        Except.ok (ConnectorOutcome.ready { conn := ((t.conn.handle_frame f).drainFrames).1 },
          none)) ∧
    (∀ f, t.conn.state ≠ ConnectionState.connected →
      up = UpstreamPoll.frameReady (some f) →
      (t.conn.handle_frame f).state ≠ ConnectionState.connected →
      AMQPTransportConnector.poll (some t) up =
        Except.ok (ConnectorOutcome.notReady,
          some { conn := ((t.conn.handle_frame f).drainFrames).1 })) ∧
    (∀ q args,
      (Connection.handle_frame
        { state := ConnectionState.connecting ConnectingStep.awaitingOpenOk, sendQueue := q }
        (Frame.method 0 10 41 args)).state = ConnectionState.connected) := by
  refine ⟨?_, ?_, ?_, ?_, ?_, fun q args => rfl⟩
  · intro t' rem h
    rw [AMQPTransportConnector.poll.eq_def] at h
    dsimp only at h
    by_cases hc : t.conn.state = ConnectionState.connected
    · rw [if_pos hc] at h
      simp only [Except.ok.injEq, Prod.mk.injEq, ConnectorOutcome.ready.injEq] at h
      rw [← h.1]
      exact hc
    · rw [if_neg hc] at h
      cases up with
      | notReady => simp at h
      | upstreamError => simp at h
      | frameReady of =>
        cases of with
        | none => simp at h
        | some f =>
          dsimp only at h
          by_cases hc2 :
              (t.conn.handle_frame f).drainFrames.1.state = ConnectionState.connected
          · rw [if_pos hc2] at h
            simp only [Except.ok.injEq, Prod.mk.injEq, ConnectorOutcome.ready.injEq] at h
            rw [← h.1]
            exact hc2
          · rw [if_neg hc2] at h
            simp at h
  · intro hc
    rw [AMQPTransportConnector.poll.eq_def]
    dsimp only
    rw [if_pos hc]
  · rintro hnc (rfl | rfl) <;>
      (rw [AMQPTransportConnector.poll.eq_def]; dsimp only; rw [if_neg hnc])
  · intro f hnc hup hc2
    subst hup
    rw [AMQPTransportConnector.poll.eq_def]
    dsimp only
    rw [if_neg hnc,
      if_pos (show (t.conn.handle_frame f).drainFrames.1.state = ConnectionState.connected
        from hc2)]
  · intro f hnc hup hc2
    subst hup
    rw [AMQPTransportConnector.poll.eq_def]
    dsimp only
    rw [if_neg hnc,
      if_neg (show ¬ (t.conn.handle_frame f).drainFrames.1.state = ConnectionState.connected
        from hc2)]

/-- Witness for C7 at a concrete connected transport polled while the
upstream has nothing: the transport is yielded. -/
theorem c7_witness :
    AMQPTransportConnector.poll
      (some { conn := { state := ConnectionState.connected, sendQueue := [] } })
      UpstreamPoll.notReady =
      Except.ok
        (ConnectorOutcome.ready
          { conn := { state := ConnectionState.connected, sendQueue := [] } }, none) :=
  (c7_connector_yields_iff_connected
    { conn := { state := ConnectionState.connected, sendQueue := [] } }
    UpstreamPoll.notReady).2.1 rfl
